import Mathlib

/-!
Formal model of the job screener (`main.py`).

The repository is a single Python script that fetches job listings from
three sources, scores each unseen listing with a language-model call,
posts high-scoring listings to a Slack webhook, and persists the set of
notified listing URLs in a JSON file (`seen_jobs.json`).

External services (HTTP fetches, BeautifulSoup, the OpenAI call, the
Slack POST) are modelled as explicit function or data parameters: a
fetch that can raise is an `Except String` value, the language-model
call is a function from the listing to `Except String String` (the
response content, or the raised exception).  Machine-level details that
cannot raise or branch (logging, `time.sleep`) are not modelled.
Python's `re` character classes are modelled over ASCII.
-/

/-- Normalized job listing record produced by each source adapter
(`title`, `description`, `url` dictionaries in `main.py`). -/
structure Listing where
  title : String
  description : String
  url : String
deriving DecidableEq, Repr

/-- ASCII model of Python's regex class `\s` (space, tab, newline,
carriage return, vertical tab, form feed). -/
def isPyWs (c : Char) : Bool :=
  c = ' ' || c = '\t' || c = '\n' || c = '\r' || c = '\x0b' || c = '\x0c'

/-- Drop the longest prefix of `\s` characters (the greedy `\s*` of the
score pattern; no backtracking is needed because a digit is never `\s`). -/
def dropPyWs : List Char → List Char
  | [] => []
  | c :: rest => if isPyWs c then dropPyWs rest else c :: rest

/-- Split off the longest prefix of ASCII digits (the greedy `\d+`; no
backtracking is needed because `/` is not a digit). -/
def takeDigits : List Char → List Char × List Char
  | [] => ([], [])
  | c :: rest =>
    if c.isDigit then
      let pr := takeDigits rest
      (c :: pr.1, pr.2)
    else ([], c :: rest)

/-- Numeric value of a digit string, as computed by Python's `int`. -/
def digitsToNat (ds : List Char) : Nat :=
  ds.foldl (fun n c => n * 10 + (c.toNat - 48)) 0

/-- Attempt to match the pattern `Score:\s*(\d+)/10` at the head of the
character list, returning the value of group 1 on success. -/
def matchScoreAt : List Char → Option Nat
  | 'S' :: 'c' :: 'o' :: 'r' :: 'e' :: ':' :: rest =>
    let rest1 := dropPyWs rest
    let pr := takeDigits rest1
    if pr.1.isEmpty then none
    else
      match pr.2 with
      | '/' :: '1' :: '0' :: _ => some (digitsToNat pr.1)
      | _ => none
  | _ => none

/-- Leftmost match of `Score:\s*(\d+)/10`, as found by `re.search`:
try each start position from the left and take the first success. -/
def findScoreMatch : List Char → Option Nat
  | [] => none
  | c :: rest =>
    match matchScoreAt (c :: rest) with
    | some n => some n
    | none => findScoreMatch rest

/-- Model of `extract_score` (main.py lines 22-24):
`int(match.group(1))` of the first `Score:\s*(\d+)/10` match, else `0`. -/
def extract_score (text : String) : Int :=
  match findScoreMatch text.toList with
  | some n => (n : Int)
  | none => 0

/-- The fixed string returned by `score_job` when the OpenAI call raises. -/
def scoringErrorFallback : String := "Score: 0/10\nReason: Error in scoring."

/-- Model of `score_job` (main.py lines 40-66).  The prompt built from the
listing (lines 41-55) only feeds the `openai.ChatCompletion.create` call,
which is modelled by the parameter `llm`: for a given listing it either
returns the response content or raises.  On success the score is extracted
from the content and the content itself is returned as the rationale; on
any exception the fixed fallback pair `(0, scoringErrorFallback)` is
returned. -/
def score_job (llm : Listing → Except String String) (job : Listing) :
    Int × String :=
  match llm job with
  | Except.ok content => (extract_score content, content)
  | Except.error _ => (0, scoringErrorFallback)

/-- JSON whitespace characters. -/
def isJsonWs (c : Char) : Bool :=
  c = ' ' || c = '\t' || c = '\n' || c = '\r'

/-- Drop leading JSON whitespace. -/
def skipJsonWs : List Char → List Char
  | [] => []
  | c :: rest => if isJsonWs c then skipJsonWs rest else c :: rest

/-- JSON string escape sequences (`\uXXXX` is not modelled and is treated
as a decode failure). -/
def escChar : Char → Option Char
  | '"' => some '"'
  | '\\' => some '\\'
  | '/' => some '/'
  | 'b' => some (Char.ofNat 8)
  | 'f' => some (Char.ofNat 12)
  | 'n' => some '\n'
  | 'r' => some '\r'
  | 't' => some '\t'
  | _ => none

/-- Parse the body of a JSON string after its opening quote, returning the
decoded characters and the remainder after the closing quote. -/
def parseStringBody : List Char → Option (List Char × List Char)
  | [] => none
  | '\\' :: e :: rest =>
    match escChar e with
    | some c => (parseStringBody rest).map (fun pr => (c :: pr.1, pr.2))
    | none => none
  | '"' :: rest => some ([], rest)
  | c :: rest => (parseStringBody rest).map (fun pr => (c :: pr.1, pr.2))

/-- Parse the items of a non-empty JSON array of strings, positioned at the
start of a string item; the whole input must be consumed.  `fuel` bounds the
recursion and is always at least the number of remaining items. -/
def parseItemsFuel : Nat → List Char → Option (List String)
  | 0, _ => none
  | fuel + 1, cs =>
    match cs with
    | '"' :: body =>
      match parseStringBody body with
      | some (chars, rest) =>
        match skipJsonWs rest with
        | ',' :: rest2 =>
          (parseItemsFuel fuel (skipJsonWs rest2)).map
            (fun l => String.mk chars :: l)
        | ']' :: rest2 =>
          if (skipJsonWs rest2).isEmpty then some [String.mk chars] else none
        | _ => none
      | none => none
    | _ => none

/-- Model of `json.load` for the only document shape this program ever
persists (a JSON array of strings, written by `save_seen_jobs`); any
other content is a decode failure. -/
def parseStrings (cs : List Char) : Option (List String) :=
  match skipJsonWs cs with
  | '[' :: rest =>
    match skipJsonWs rest with
    | ']' :: rest2 => if (skipJsonWs rest2).isEmpty then some [] else none
    | rest2 => parseItemsFuel (rest2.length + 1) rest2
  | _ => none

/-- String-level wrapper of `parseStrings`. -/
def jsonParseStrings (s : String) : Option (List String) :=
  parseStrings s.toList

/-- Model of `load_seen_jobs` (main.py lines 29-33).  The persisted file is
`none` when `os.path.exists` is false (return the empty set) and
`some content` otherwise, in which case `set(json.load(f))` is computed:
there is no exception handler, so a decode failure propagates. -/
def load_seen_jobs (file : Option String) : Except String (Finset String) :=
  match file with
  | none => Except.ok ∅
  | some content =>
    match jsonParseStrings content with
    | some l => Except.ok l.toFinset
    | none => Except.error "json.decoder.JSONDecodeError"

/-- Escape of one character inside a dumped JSON string. -/
def escapeJsonChar (c : Char) : List Char :=
  if c = '"' || c = '\\' then ['\\', c]
  else if c = '\n' then ['\\', 'n']
  else if c = '\t' then ['\\', 't']
  else if c = '\r' then ['\\', 'r']
  else [c]

/-- Model of `json.dump` applied to a list of strings. -/
def jsonDumpStrings (l : List String) : String :=
  "[" ++ String.intercalate ", "
    (l.map (fun s => "\"" ++ String.mk (s.toList.map escapeJsonChar).flatten ++ "\""))
  ++ "]"

/-- Model of `save_seen_jobs` (main.py lines 35-37): the file is overwritten
with `json.dump(list(seen), f)`.  Python's `list(set)` enumerates the set
in an arbitrary order; the model picks the sorted enumeration. -/
def save_seen_jobs (seen : Finset String) : String :=
  jsonDumpStrings (seen.sort (fun a b => a ≤ b))

/-- Does `pre` occur at the head of `hay`? (Python string equality prefix
test, used to realize the substring test below.) -/
def startsWithChars : List Char → List Char → Bool
  | _, [] => true
  | [], _ :: _ => false
  | c :: cs, d :: ds => c = d && startsWithChars cs ds

/-- Does `needle` occur contiguously anywhere in `hay`? Model of Python's
`needle in hay` on strings. -/
def containsSub (hay needle : List Char) : Bool :=
  match hay with
  | [] => needle.isEmpty
  | _ :: rest => startsWithChars hay needle || containsSub rest needle

/-- Python `sub in s` on strings. -/
def pyIn (sub s : String) : Bool := containsSub s.toList sub.toList

/-- Rendering of a possibly-missing value inside an f-string: Python's
`None` prints as `"None"`. -/
def pyStr : Option String → String
  | some s => s
  | none => "None"

/-- Raw Remote OK API record: the `position`, `description` and `url` keys
of one element of the JSON response, `none` when the key is absent. -/
structure RawRemoteJob where
  position : Option String
  description : Option String
  url : Option String
deriving DecidableEq, Repr

/-- Model of `fetch_remoteok_jobs` (main.py lines 78-92).  `resp` models
`requests.get("https://remoteok.com/api").json()` — either the decoded
list of records or a raised exception — and `stripTags` models
`clean_html` (main.py lines 26-27), i.e. BeautifulSoup's `get_text`.
The code drops the first element, keeps records whose position contains
"data" case-insensitively, and builds a listing per surviving record; a
surviving record's `position` is necessarily present, so reading it with
default `""` is exact.  Any exception yields the empty list. -/
def fetch_remoteok_jobs (stripTags : String → String)
    (resp : Except String (List RawRemoteJob)) : List Listing :=
  match resp with
  | Except.error _ => []
  | Except.ok body =>
    ((body.drop 1).filter
        (fun job => pyIn "data" (job.position.getD "").toLower)).map
      (fun job =>
        { title := job.position.getD ""
          description := (stripTags (job.description.getD "")).take 1000
          url := "https://remoteok.com" ++ pyStr job.url })

/-- Parsed Y Combinator job card: `h2` and `p` are the text of
`select_one("h2")` / `select_one("p")` (absent when `select_one` returns
`None`), and `href` is the card's `href` attribute if present. -/
structure YcCard where
  h2 : Option String
  p : Option String
  href : Option String
deriving DecidableEq, Repr

/-- One pass over the parsed Y Combinator cards, as the comprehension of
main.py lines 98-106 evaluates: for each card the filter reads
`jc.select_one("h2").text` (an `AttributeError` when there is no `h2`),
and for each card passing the filter `jc["href"]` is read (a `KeyError`
when absent); an exception at any card aborts the whole comprehension. -/
def ycEntries : List YcCard → Except String (List Listing)
  | [] => Except.ok []
  | jc :: rest => do
    let t ← match jc.h2 with
      | some t => Except.ok t
      | none => Except.error "AttributeError: NoneType has no attribute text"
    if pyIn "data" t.toLower && !(pyIn "intern" t.toLower) then
      let href ← match jc.href with
        | some h => Except.ok h
        | none => Except.error "KeyError: href"
      let tail ← ycEntries rest
      Except.ok
        ({ title := t.trim
           description := match jc.p with
             | some p => p.trim
             | none => ""
           url := "https://www.ycombinator.com" ++ href } :: tail)
    else
      ycEntries rest

/-- Model of `fetch_ycombinator_jobs` (main.py lines 95-109).  `resp`
models the fetch-and-parse of the jobs page into the selected cards; any
exception — in the fetch, the parse, or the comprehension — is caught and
yields the empty list. -/
def fetch_ycombinator_jobs (resp : Except String (List YcCard)) :
    List Listing :=
  match resp >>= ycEntries with
  | Except.ok l => l
  | Except.error _ => []

/-- One `related_links` entry of a SerpAPI record: its `link` key. -/
structure RelatedLink where
  link : Option String
deriving DecidableEq, Repr

/-- Raw SerpAPI job record: the keys read by the code, `none` when absent. -/
structure RawGoogleJob where
  title : Option String
  description : Option String
  related_links : Option (List RelatedLink)
deriving DecidableEq, Repr

/-- One pass over the SerpAPI records, as the comprehension of main.py
lines 122-128 evaluates: `job["title"]` and `job["description"]` raise
`KeyError` when absent, and `job.get("related_links", [{}])[0]` raises
`IndexError` when `related_links` is present but empty; an exception at
any record aborts the whole comprehension. -/
def googleEntries : List RawGoogleJob → Except String (List Listing)
  | [] => Except.ok []
  | job :: rest => do
    let t ← match job.title with
      | some t => Except.ok t
      | none => Except.error "KeyError: title"
    let d ← match job.description with
      | some d => Except.ok d
      | none => Except.error "KeyError: description"
    let u ← match job.related_links.getD [⟨none⟩] with
      | [] => Except.error "IndexError: list index out of range"
      | r0 :: _ => Except.ok (r0.link.getD "")
    let tail ← googleEntries rest
    Except.ok ({ title := t, description := d, url := u } :: tail)

/-- Model of `fetch_google_jobs` (main.py lines 112-131).  `query` and
`location` only feed the request parameters; `resp` models
`requests.get(...).json().get("jobs_results", [])` — the decoded record
list, or a raised exception.  Any exception is caught and yields the
empty list. -/
def fetch_google_jobs (query location : String)
    (resp : Except String (List RawGoogleJob)) : List Listing :=
  match resp >>= googleEntries with
  | Except.ok l => l
  | Except.error _ => []

/-- Model of `gather_jobs` (main.py lines 134-135): the three feeds
concatenated. -/
def gather_jobs (stripTags : String → String)
    (r1 : Except String (List RawRemoteJob))
    (r2 : Except String (List YcCard))
    (r3 : Except String (List RawGoogleJob)) : List Listing :=
  fetch_remoteok_jobs stripTags r1 ++ fetch_ycombinator_jobs r2 ++
    fetch_google_jobs "data scientist" "remote" r3

/-- State threaded through the loop of `main` (main.py lines 138-158):
`newSeen` is the `new_seen` set, and `scored` / `notified` record, in
order, the `score_job` and `send_to_slack` invocations as pairs of the
listing's position in the gathered list and the listing itself. -/
structure PassResult where
  newSeen : Finset String
  scored : List (Nat × Listing)
  notified : List (Nat × Listing)
deriving DecidableEq

/-- One iteration of the loop of `main` (main.py lines 141-156) on the
listing at position `i`: a listing whose url is in the seen set loaded at
the start is skipped; otherwise it is scored, and if the score is at
least 7 the Slack notifier is invoked and the url added to `new_seen`. -/
def stepJob (llm : Listing → Except String String) (seen0 : Finset String)
    (i : Nat) (job : Listing) (st : PassResult) : PassResult :=
  if job.url ∈ seen0 then st
  else
    let sc := score_job llm job
    let st1 : PassResult := { st with scored := st.scored ++ [(i, job)] }
    if 7 ≤ sc.1 then
      { st1 with
        notified := st1.notified ++ [(i, job)]
        newSeen := insert job.url st1.newSeen }
    else st1

/-- The loop of `main` over the remaining listings, `i` being the position
of the first of them in the gathered list. -/
def passFrom (llm : Listing → Except String String) (seen0 : Finset String) :
    Nat → List Listing → PassResult → PassResult
  | _, [], st => st
  | i, job :: rest, st =>
    passFrom llm seen0 (i + 1) rest (stepJob llm seen0 i job st)

/-- Model of one run of `main` (main.py lines 138-158) on a loaded seen
set `seen0` and gathered listings `jobs`: `new_seen` starts as a copy of
the loaded set, the loop processes each listing in order, and the final
`newSeen` is what `save_seen_jobs` persists at line 158. -/
def runOnce (llm : Listing → Except String String) (seen0 : Finset String)
    (jobs : List Listing) : PassResult :=
  passFrom llm seen0 0 jobs { newSeen := seen0, scored := [], notified := [] }

/-- Model of `main` (main.py lines 138-158) including the load step:
`load_seen_jobs` may raise, in which case the run aborts. -/
def mainRun (llm : Listing → Except String String) (file : Option String)
    (jobs : List Listing) : Except String PassResult :=
  (load_seen_jobs file).map (fun seen0 => runOnce llm seen0 jobs)

/-- Positions (from `i`) and listings of a list that satisfy a condition:
the closed form of the event lists produced by the loop of `main`. -/
def eventsOf (cond : Listing → Bool) : Nat → List Listing → List (Nat × Listing)
  | _, [] => []
  | i, job :: rest =>
    (if cond job then [(i, job)] else []) ++ eventsOf cond (i + 1) rest

/-- Insert the url of every event's listing, in order: the closed form of
the growth of `new_seen` during the loop of `main`. -/
def addUrls (s : Finset String) : List (Nat × Listing) → Finset String
  | [] => s
  | p :: rest => addUrls (insert p.2.url s) rest

/-- A listing is scored during the pass exactly when its url is not in the
seen set loaded at the start. -/
def scoreCond (seen0 : Finset String) (job : Listing) : Bool :=
  decide (job.url ∉ seen0)

/-- A listing is sent to Slack exactly when its url is not in the loaded
seen set and its score is at least 7. -/
def notifyCond (llm : Listing → Except String String) (seen0 : Finset String)
    (job : Listing) : Bool :=
  decide (job.url ∉ seen0) && decide (7 ≤ (score_job llm job).1)

/-- Language-model stub whose every response carries score 8. -/
def llmAlways8 : Listing → Except String String :=
  fun _ => Except.ok "Score: 8/10\nReason: Strong data science match."

/-- Language-model stub whose every response carries score 9. -/
def llmAlways9 : Listing → Except String String :=
  fun _ => Except.ok "Score: 9/10\nReason: Excellent fit."

/-- Language-model stub that always raises. -/
def llmErr : Listing → Except String String :=
  fun _ => Except.error "openai.error.APIError"

/-- Language-model stub whose response lacks the `Score: X/10` pattern. -/
def llmNoPattern : Listing → Except String String :=
  fun _ => Except.ok "I cannot rate this job."

/-- Language-model stub that scores the listing titled `"a"` 3/10 and
every other listing 8/10. -/
def llmByTitle : Listing → Except String String :=
  fun job =>
    Except.ok (if job.title = "a" then "Score: 3/10\nReason: Weak match."
               else "Score: 8/10\nReason: Good match.")

/-- Sample high-scoring listing. -/
def sampleJob : Listing :=
  { title := "Senior Data Scientist"
    description := "Remote role, $150k"
    url := "https://remoteok.com/remote-jobs/1" }

/-- Sample listing titled `"a"`; shares its url with `dupJobB`. -/
def dupJobA : Listing :=
  { title := "a", description := "d", url := "https://jobs.example/u" }

/-- Sample listing titled `"b"`; shares its url with `dupJobA`. -/
def dupJobB : Listing :=
  { title := "b", description := "d", url := "https://jobs.example/u" }

/-- Every event of `eventsOf cond i l` has position at least `i`. -/
theorem eventsOf_idx_ge (cond : Listing → Bool) (l : List Listing) :
    ∀ (i : Nat) (p : Nat × Listing), p ∈ eventsOf cond i l → i ≤ p.1 := by
  induction l with
  | nil => intro i p hp; simp [eventsOf] at hp
  | cons job rest ih =>
    intro i p hp
    rw [eventsOf] at hp
    rcases List.mem_append.mp hp with h1 | h2
    · by_cases hc : cond job
      · simp [hc] at h1
        simp [h1]
      · simp [hc] at h1
    · have := ih (i + 1) p h2
      omega

/-- Every event's listing satisfies the condition and comes from the list. -/
theorem eventsOf_mem (cond : Listing → Bool) (l : List Listing) :
    ∀ (i : Nat) (p : Nat × Listing), p ∈ eventsOf cond i l →
      cond p.2 = true ∧ p.2 ∈ l := by
  induction l with
  | nil => intro i p hp; simp [eventsOf] at hp
  | cons job rest ih =>
    intro i p hp
    rw [eventsOf] at hp
    rcases List.mem_append.mp hp with h1 | h2
    · by_cases hc : cond job
      · simp [hc] at h1
        refine ⟨?_, ?_⟩
        · rw [h1]; exact hc
        · rw [h1]; exact List.mem_cons_self job rest
      · simp [hc] at h1
    · obtain ⟨hcond, hmem⟩ := ih (i + 1) p h2
      exact ⟨hcond, List.mem_cons_of_mem job hmem⟩

/-- Every listed element satisfying the condition yields an event. -/
theorem eventsOf_exists (cond : Listing → Bool) (l : List Listing) :
    ∀ (i : Nat) (job : Listing), job ∈ l → cond job = true →
      ∃ k, (k, job) ∈ eventsOf cond i l := by
  induction l with
  | nil => intro i job hmem; simp at hmem
  | cons j rest ih =>
    intro i job hmem hc
    rcases List.mem_cons.mp hmem with rfl | htail
    · exact ⟨i, by rw [eventsOf]; simp [hc]⟩
    · obtain ⟨k, hk⟩ := ih (i + 1) job htail hc
      exact ⟨k, by rw [eventsOf]; exact List.mem_append.mpr (Or.inr hk)⟩

/-- When no listed element satisfies the condition there are no events. -/
theorem eventsOf_eq_nil (cond : Listing → Bool) (l : List Listing)
    (hall : ∀ a ∈ l, cond a = false) : ∀ i, eventsOf cond i l = [] := by
  induction l with
  | nil => intro i; rfl
  | cons job rest ih =>
    intro i
    rw [eventsOf]
    have hj : cond job = false := hall job (List.mem_cons_self job rest)
    have := ih (fun a ha => hall a (List.mem_cons_of_mem job ha)) (i + 1)
    simp [hj, this]

/-- Exactly one event can sit at a given position, and it is the event of
the listing at that position in the list. -/
theorem eventsOf_countP_idx (cond : Listing → Bool) (l : List Listing) :
    ∀ (i k : Nat) (h : k < l.length),
      (eventsOf cond i l).countP (fun p => decide (p.1 = i + k)) =
        if cond (l.get ⟨k, h⟩) then 1 else 0 := by
  induction l with
  | nil => intro i k h; exact absurd h (Nat.not_lt_zero k)
  | cons job rest ih =>
    intro i k h
    cases k with
    | zero =>
      have hz : (eventsOf cond (i + 1) rest).countP
          (fun p => decide (p.1 = i)) = 0 := by
        refine List.countP_eq_zero.mpr ?_
        intro p hp
        have hge := eventsOf_idx_ge cond rest (i + 1) p hp
        simp only [decide_eq_true_eq]
        omega
      rw [eventsOf, List.countP_append]
      simp only [Nat.add_zero]
      rw [hz]
      by_cases hc : cond job = true
      · simp [hc, List.countP_cons]
      · simp [hc]
    | succ m =>
      have hm : m < rest.length := Nat.lt_of_succ_lt_succ h
      have harith : i + (m + 1) = (i + 1) + m := by omega
      have htail := ih (i + 1) m hm
      have hnoti : ¬ (i = i + 1 + m) := by omega
      rw [eventsOf, List.countP_append]
      simp only [harith]
      rw [htail]
      by_cases hc : cond job = true
      · rw [if_pos hc]
        simp [List.countP_cons, hnoti]
      · rw [if_neg hc]
        simp

/-- Membership in the set obtained by inserting every event's url. -/
theorem mem_addUrls (evts : List (Nat × Listing)) :
    ∀ (s : Finset String) (x : String),
      x ∈ addUrls s evts ↔ x ∈ s ∨ ∃ p ∈ evts, p.2.url = x := by
  induction evts with
  | nil => intro s x; simp [addUrls]
  | cons p rest ih =>
    intro s x
    rw [addUrls, ih]
    simp only [Finset.mem_insert, List.mem_cons]
    constructor
    · rintro (⟨h | h⟩ | ⟨q, hq, hqx⟩)
      · exact Or.inr ⟨p, Or.inl rfl, h.symm⟩
      · exact Or.inl h
      · exact Or.inr ⟨q, Or.inr hq, hqx⟩
    · rintro (h | ⟨q, hq | hq, hqx⟩)
      · exact Or.inl (Or.inr h)
      · subst hq; exact Or.inl (Or.inl hqx.symm)
      · exact Or.inr ⟨q, hq, hqx⟩

/-- Inserting urls only grows the set. -/
theorem subset_addUrls (s : Finset String) (evts : List (Nat × Listing)) :
    s ⊆ addUrls s evts :=
  fun x hx => (mem_addUrls evts s x).mpr (Or.inl hx)

/-- Closed form of the loop of `main`: the final state appends the score
events, the notification events, and inserts the notified urls. -/
theorem passFrom_eq (llm : Listing → Except String String)
    (seen0 : Finset String) (l : List Listing) :
    ∀ (i : Nat) (st : PassResult),
    passFrom llm seen0 i l st =
      { newSeen := addUrls st.newSeen (eventsOf (notifyCond llm seen0) i l)
        scored := st.scored ++ eventsOf (scoreCond seen0) i l
        notified := st.notified ++ eventsOf (notifyCond llm seen0) i l } := by
  induction l with
  | nil => intro i st; simp [passFrom, eventsOf, addUrls]
  | cons job rest ih =>
    intro i st
    rw [passFrom, ih]
    by_cases hseen : job.url ∈ seen0
    · simp [stepJob, hseen, eventsOf, notifyCond, scoreCond]
    · by_cases hsc : (7 : Int) ≤ (score_job llm job).1
      · simp [stepJob, hseen, hsc, eventsOf, notifyCond, scoreCond, addUrls]
      · simp [stepJob, hseen, hsc, eventsOf, notifyCond, scoreCond, addUrls]

/-- The score events of one run. -/
theorem runOnce_scored (llm : Listing → Except String String)
    (seen0 : Finset String) (jobs : List Listing) :
    (runOnce llm seen0 jobs).scored = eventsOf (scoreCond seen0) 0 jobs := by
  rw [runOnce, passFrom_eq]
  simp

/-- The notification events of one run. -/
theorem runOnce_notified (llm : Listing → Except String String)
    (seen0 : Finset String) (jobs : List Listing) :
    (runOnce llm seen0 jobs).notified =
      eventsOf (notifyCond llm seen0) 0 jobs := by
  rw [runOnce, passFrom_eq]
  simp

/-- The persisted seen set of one run. -/
theorem runOnce_newSeen (llm : Listing → Except String String)
    (seen0 : Finset String) (jobs : List Listing) :
    (runOnce llm seen0 jobs).newSeen =
      addUrls seen0 (eventsOf (notifyCond llm seen0) 0 jobs) := by
  rw [runOnce, passFrom_eq]

/-- C1: for every listing processed in a pass whose url is not in the seen
set loaded at the start of the run and whose score is at least 7, the
Runner invokes the Notifier exactly once for that listing (exactly one
notification event carries its position), and the listing's url is a
member of the seen set persisted at the end of the run. -/
theorem C1_notify_once_and_persist
    (llm : Listing → Except String String) (seen0 : Finset String)
    (jobs : List Listing) (k : Nat) (job : Listing)
    (h : k < jobs.length) (hget : jobs.get ⟨k, h⟩ = job)
    (hnew : job.url ∉ seen0) (hhigh : 7 ≤ (score_job llm job).1) :
    ((runOnce llm seen0 jobs).notified.countP
        (fun p => decide (p.1 = k)) = 1) ∧
      job.url ∈ (runOnce llm seen0 jobs).newSeen := by
  have hcond : notifyCond llm seen0 job = true := by
    simp [notifyCond, hnew, hhigh]
  constructor
  · rw [runOnce_notified]
    have hcnt := eventsOf_countP_idx (notifyCond llm seen0) jobs 0 k h
    rw [hget, hcond, if_pos rfl] at hcnt
    simpa using hcnt
  · rw [runOnce_newSeen]
    have hmem : job ∈ jobs := hget ▸ jobs.get_mem k h
    obtain ⟨m, hm⟩ :=
      eventsOf_exists (notifyCond llm seen0) jobs 0 job hmem hcond
    exact (mem_addUrls _ _ _).mpr (Or.inr ⟨(m, job), hm, rfl⟩)

/-- C1 witness: a fresh high-scoring listing is notified exactly once and
its url is persisted. -/
theorem C1_witness :
    (0 < [sampleJob].length ∧ sampleJob.url ∉ (∅ : Finset String) ∧
      7 ≤ (score_job llmAlways8 sampleJob).1) ∧
    (((runOnce llmAlways8 ∅ [sampleJob]).notified.countP
        (fun p => decide (p.1 = 0)) = 1) ∧
      sampleJob.url ∈ (runOnce llmAlways8 ∅ [sampleJob]).newSeen) :=
  ⟨⟨by decide, by decide, by decide⟩,
    C1_notify_once_and_persist llmAlways8 ∅ [sampleJob] 0 sampleJob
      (by decide) rfl (by decide) (by decide)⟩

/-- C2 counterexample: the code has no exception handler around
`json.load`, so malformed file content makes `load_seen_jobs` raise a
decode error instead of returning the empty set. -/
theorem C2_counterexample :
    load_seen_jobs (some "garbage") =
        Except.error "json.decoder.JSONDecodeError" ∧
      load_seen_jobs (some "garbage") ≠ Except.ok (∅ : Finset String) := by
  refine ⟨rfl, fun hcontra => ?_⟩
  rw [show load_seen_jobs (some "garbage") =
      Except.error "json.decoder.JSONDecodeError" from rfl] at hcontra
  exact Except.noConfusion hcontra

/-- C2 amended: `load_seen_jobs` returns the empty set, without raising,
when the persisted file is absent; but malformed content (for example
non-JSON text) makes it raise a decode error rather than return the empty
set. -/
theorem C2_amended :
    load_seen_jobs none = Except.ok (∅ : Finset String) ∧
      ∃ err, load_seen_jobs (some "garbage") = Except.error err :=
  ⟨rfl, ⟨"json.decoder.JSONDecodeError", rfl⟩⟩

/-- C3 counterexample: the duplicate check of the loop consults only the
seen set loaded at the start, so when a low-scoring listing shares its url
with a high-scoring listing of the same pass, the low-scoring listing's
url IS in the persisted seen set, contradicting the claim.  Here
`dupJobA` is processed (scored exactly once at position 0), scores 3,
is not notified — yet its url is persisted, because `dupJobB` (same url)
scored 8. -/
theorem C3_counterexample :
    (score_job llmByTitle dupJobA).1 = 3 ∧
    ((runOnce llmByTitle ∅ [dupJobA, dupJobB]).scored.countP
        (fun p => decide (p.1 = 0)) = 1) ∧
    ((runOnce llmByTitle ∅ [dupJobA, dupJobB]).notified.countP
        (fun p => decide (p.1 = 0)) = 0) ∧
    dupJobA.url ∈ (runOnce llmByTitle ∅ [dupJobA, dupJobB]).newSeen := by
  decide

/-- C3 amended: for every listing processed in a pass whose score is below
7, the Runner does not invoke the Notifier for it; and its url is absent
from the persisted seen set provided no listing of the same pass with the
same url scored at least 7. -/
theorem C3_low_score_not_notified
    (llm : Listing → Except String String) (seen0 : Finset String)
    (jobs : List Listing) (k : Nat) (job : Listing)
    (h : k < jobs.length) (hget : jobs.get ⟨k, h⟩ = job)
    (hnew : job.url ∉ seen0) (hlow : (score_job llm job).1 < 7)
    (hnone : ∀ j ∈ jobs, j.url = job.url → (score_job llm j).1 < 7) :
    ((runOnce llm seen0 jobs).notified.countP
        (fun p => decide (p.1 = k)) = 0) ∧
      job.url ∉ (runOnce llm seen0 jobs).newSeen := by
  have hcond : notifyCond llm seen0 job = false := by
    simp [notifyCond]
    intro _
    omega
  constructor
  · rw [runOnce_notified]
    have hcnt := eventsOf_countP_idx (notifyCond llm seen0) jobs 0 k h
    rw [hget, hcond] at hcnt
    simp only [Bool.false_eq_true, if_false] at hcnt
    simpa using hcnt
  · rw [runOnce_newSeen]
    intro hmem
    rcases (mem_addUrls _ _ _).mp hmem with hs | ⟨p, hp, hpurl⟩
    · exact hnew hs
    · obtain ⟨hpc, hpl⟩ := eventsOf_mem (notifyCond llm seen0) jobs 0 p hp
      have h7 : 7 ≤ (score_job llm p.2).1 := by
        simp [notifyCond] at hpc
        exact hpc.2
      have := hnone p.2 hpl hpurl
      omega

/-- C3 witness: a low-scoring fresh listing with no same-url companion is
not notified and its url is not persisted. -/
theorem C3_witness :
    (0 < [dupJobA].length ∧ dupJobA.url ∉ (∅ : Finset String) ∧
      (score_job llmByTitle dupJobA).1 < 7 ∧
      (∀ j ∈ [dupJobA], j.url = dupJobA.url →
        (score_job llmByTitle j).1 < 7)) ∧
    (((runOnce llmByTitle ∅ [dupJobA]).notified.countP
        (fun p => decide (p.1 = 0)) = 0) ∧
      dupJobA.url ∉ (runOnce llmByTitle ∅ [dupJobA]).newSeen) :=
  ⟨⟨by decide, by decide, by decide, by decide⟩,
    C3_low_score_not_notified llmByTitle ∅ [dupJobA] 0 dupJobA
      (by decide) rfl (by decide) (by decide) (by decide)⟩

/-- C4: a pass is idempotent — running the pass again on the seen set
persisted by a first pass, with the same gathered listings and the same
deterministic scoring function, produces no notifications at all. -/
theorem C4_second_pass_silent
    (llm : Listing → Except String String) (seen0 : Finset String)
    (jobs : List Listing) :
    (runOnce llm ((runOnce llm seen0 jobs).newSeen) jobs).notified = [] := by
  rw [runOnce_notified]
  refine eventsOf_eq_nil _ jobs ?_ 0
  intro job hj
  by_cases h7 : (7 : Int) ≤ (score_job llm job).1
  · have hin : job.url ∈ (runOnce llm seen0 jobs).newSeen := by
      rw [runOnce_newSeen]
      by_cases h0 : job.url ∈ seen0
      · exact subset_addUrls _ _ h0
      · have hc : notifyCond llm seen0 job = true := by
          simp [notifyCond, h0, h7]
        obtain ⟨m, hm⟩ :=
          eventsOf_exists (notifyCond llm seen0) jobs 0 job hj hc
        exact (mem_addUrls _ _ _).mpr (Or.inr ⟨(m, job), hm, rfl⟩)
    simp [notifyCond, hin]
  · simp [notifyCond, h7]

/-- C5 counterexample: `extract_score` does not clamp — the response
`"Score: 11/10"` yields 11, outside the claimed range `[0,10]`. -/
theorem C5_counterexample :
    extract_score "Score: 11/10" = 11 ∧
      10 < extract_score "Score: 11/10" := by
  decide

/-- C5 amended: the extracted score is a nonnegative integer — it is 0
whenever the response does not contain the pattern `Score: X/10`, and
otherwise it is the (unclamped, possibly greater than 10) number of the
first match. -/
theorem C5_score_nonneg_and_default
    (s : String) :
    0 ≤ extract_score s ∧
      (findScoreMatch s.toList = none → extract_score s = 0) := by
  constructor
  · rw [extract_score]
    cases hm : findScoreMatch s.toList <;> simp [hm]
  · intro hnone
    have hnone2 : findScoreMatch s.data = none := hnone
    rw [extract_score]
    simp [hnone2]

/-- C5 witness: a response with no score pattern extracts 0. -/
theorem C5_witness :
    findScoreMatch ("no rating here").toList = none ∧
      (0 ≤ extract_score "no rating here" ∧
        extract_score "no rating here" = 0) :=
  ⟨by decide,
    ⟨(C5_score_nonneg_and_default "no rating here").1,
      (C5_score_nonneg_and_default "no rating here").2 (by decide)⟩⟩

/-- C6: a listing whose url is already in the loaded seen set is skipped —
no score event and no notification event carry its position. -/
theorem C6_seen_never_scored_or_notified
    (llm : Listing → Except String String) (seen0 : Finset String)
    (jobs : List Listing) (k : Nat) (job : Listing)
    (h : k < jobs.length) (hget : jobs.get ⟨k, h⟩ = job)
    (hseen : job.url ∈ seen0) :
    ((runOnce llm seen0 jobs).scored.countP
        (fun p => decide (p.1 = k)) = 0) ∧
      ((runOnce llm seen0 jobs).notified.countP
        (fun p => decide (p.1 = k)) = 0) := by
  have hsc : scoreCond seen0 job = false := by simp [scoreCond, hseen]
  have hnc : notifyCond llm seen0 job = false := by
    simp [notifyCond, hseen]
  constructor
  · rw [runOnce_scored]
    have hcnt := eventsOf_countP_idx (scoreCond seen0) jobs 0 k h
    rw [hget, hsc] at hcnt
    simp only [Bool.false_eq_true, if_false] at hcnt
    simpa using hcnt
  · rw [runOnce_notified]
    have hcnt := eventsOf_countP_idx (notifyCond llm seen0) jobs 0 k h
    rw [hget, hnc] at hcnt
    simp only [Bool.false_eq_true, if_false] at hcnt
    simpa using hcnt

/-- C6 witness: a listing whose url was loaded as seen is neither scored
nor notified. -/
theorem C6_witness :
    (0 < [sampleJob].length ∧
      sampleJob.url ∈ ({sampleJob.url} : Finset String)) ∧
    (((runOnce llmAlways9 {sampleJob.url} [sampleJob]).scored.countP
        (fun p => decide (p.1 = 0)) = 0) ∧
      ((runOnce llmAlways9 {sampleJob.url} [sampleJob]).notified.countP
        (fun p => decide (p.1 = 0)) = 0)) :=
  ⟨⟨by decide, by decide⟩,
    C6_seen_never_scored_or_notified llmAlways9 {sampleJob.url} [sampleJob]
      0 sampleJob (by decide) rfl (by decide)⟩

/-- C7 counterexample: when the language-model call succeeds but the
response lacks the `Score: X/10` pattern, `score_job` returns score 0
paired with the raw response — not with the fixed fallback rationale
string (which is returned only when the call raises). -/
theorem C7_counterexample :
    score_job llmNoPattern sampleJob = (0, "I cannot rate this job.") ∧
      "I cannot rate this job." ≠ scoringErrorFallback := by
  refine ⟨by decide, by decide⟩

/-- C7 amended: `score_job` never raises — if the language-model call
raises it returns score 0 paired with the fixed fallback rationale, and
if the call succeeds but the pattern is absent it returns score 0 paired
with the raw response text. -/
theorem C7_score_job_total
    (llm : Listing → Except String String) (job : Listing) :
    (∀ e, llm job = Except.error e →
      score_job llm job = (0, scoringErrorFallback)) ∧
    (∀ c, llm job = Except.ok c → findScoreMatch c.toList = none →
      score_job llm job = (0, c)) := by
  constructor
  · intro e he
    simp [score_job, he]
  · intro c hc hnone
    have hnone2 : findScoreMatch c.data = none := hnone
    have hz : extract_score c = 0 := by
      rw [extract_score]
      simp [hnone2]
    simp [score_job, hc, hz]

/-- C7 witness: both failure modes at concrete inputs. -/
theorem C7_witness :
    (llmErr sampleJob = Except.error "openai.error.APIError" ∧
      score_job llmErr sampleJob = (0, scoringErrorFallback)) ∧
    (llmNoPattern sampleJob = Except.ok "I cannot rate this job." ∧
      findScoreMatch ("I cannot rate this job.").toList = none ∧
      score_job llmNoPattern sampleJob = (0, "I cannot rate this job.")) :=
  ⟨⟨rfl, (C7_score_job_total llmErr sampleJob).1 "openai.error.APIError" rfl⟩,
    ⟨rfl, by decide,
      (C7_score_job_total llmNoPattern sampleJob).2
        "I cannot rate this job." rfl (by decide)⟩⟩

/-- C8: the persisted seen set of a run is a superset of the loaded one —
urls are only ever inserted, never removed. -/
theorem C8_seen_monotone
    (llm : Listing → Except String String) (seen0 : Finset String)
    (jobs : List Listing) :
    seen0 ⊆ (runOnce llm seen0 jobs).newSeen := by
  rw [runOnce_newSeen]
  exact subset_addUrls _ _

/-- C9: each of the three source adapters catches any fetch or parse
failure and returns the empty sequence of listings instead of raising. -/
theorem C9_adapters_swallow_errors
    (stripTags : String → String) (query location : String) (e : String) :
    fetch_remoteok_jobs stripTags (Except.error e) = [] ∧
      fetch_ycombinator_jobs (Except.error e) = [] ∧
      fetch_google_jobs query location (Except.error e) = [] :=
  ⟨rfl, rfl, rfl⟩

/-- C10: the duplicate check compares only against the seen set loaded at
the start of the run — two listings sharing a fresh url are both scored
(each exactly once), and when both score at least 7 the Notifier is
invoked twice for that url. -/
theorem C10_no_intra_run_dedup
    (llm : Listing → Except String String) (seen0 : Finset String)
    (l1 l2 : Listing) (hurl : l2.url = l1.url) (hnew : l1.url ∉ seen0) :
    ((runOnce llm seen0 [l1, l2]).scored.countP
        (fun p => decide (p.1 = 0)) = 1 ∧
      (runOnce llm seen0 [l1, l2]).scored.countP
        (fun p => decide (p.1 = 1)) = 1) ∧
    (7 ≤ (score_job llm l1).1 → 7 ≤ (score_job llm l2).1 →
      (runOnce llm seen0 [l1, l2]).notified.countP
        (fun p => decide (p.2.url = l1.url)) = 2) := by
  have hnew2 : l2.url ∉ seen0 := by rw [hurl]; exact hnew
  constructor
  · rw [runOnce_scored]
    constructor <;>
      simp [eventsOf, scoreCond, hnew, hnew2, List.countP_cons]
  · intro h1 h2
    rw [runOnce_notified]
    simp [eventsOf, notifyCond, hnew, hnew2, h1, h2, List.countP_cons, hurl]

/-- C10 witness: two concrete listings sharing a url, both scoring 9, are
both scored and the url is notified twice. -/
theorem C10_witness :
    (dupJobB.url = dupJobA.url ∧ dupJobA.url ∉ (∅ : Finset String) ∧
      7 ≤ (score_job llmAlways9 dupJobA).1 ∧
      7 ≤ (score_job llmAlways9 dupJobB).1) ∧
    (((runOnce llmAlways9 ∅ [dupJobA, dupJobB]).scored.countP
        (fun p => decide (p.1 = 0)) = 1 ∧
      (runOnce llmAlways9 ∅ [dupJobA, dupJobB]).scored.countP
        (fun p => decide (p.1 = 1)) = 1) ∧
      (runOnce llmAlways9 ∅ [dupJobA, dupJobB]).notified.countP
        (fun p => decide (p.2.url = dupJobA.url)) = 2) :=
  ⟨⟨rfl, by decide, by decide, by decide⟩,
    ⟨(C10_no_intra_run_dedup llmAlways9 ∅ dupJobA dupJobB rfl (by decide)).1,
      (C10_no_intra_run_dedup llmAlways9 ∅ dupJobA dupJobB rfl
        (by decide)).2 (by decide) (by decide)⟩⟩
